import Mathlib

/-!
# Verification of the PixiJS grid component

Shallow embedding of `src/src/pixijs-grid.js` (class `PixiJSGrid extends
PIXI.Graphics`) and proofs about it.

Modelling conventions:
* JS numbers are embedded as exact arithmetic: the constructor `width` as a
  natural number (the spec's scenarios use naturals), coordinates and cell
  sizes as rationals.  `Math.sqrt` is applied by the code only to
  `this._correctedWidth`, which is always a perfect square of a natural
  (see `_correctWidth`), so it is embedded exactly as `Nat.sqrt`.
  `Math.ceil (Math.sqrt w)` on a natural `w` is embedded exactly as
  `ceilSqrt w`.
* A JS optional numeric argument is `Option ℚ`; the numeric falsy values
  relevant to `cellSize || Math.sqrt …` are `none` (absent/null/undefined)
  and `some 0`.
* The grid object splits into the pure geometry fields (`PixiJSGrid`) and
  the inherited `PIXI.Graphics` drawing state (`Surface`: the list of drawn
  segments and the current line style).  A JS method returning `this`
  becomes `some g`; the bare `return;` in `clearGrid` becomes `none`.
* The `for` loop of `drawGrid` runs an integer counter `i` from its start
  value while `i ≤ amtLines - offset`; its iterations are the integers in
  `[offset, ⌊amtLines - offset⌋]`, embedded as the list `gridLoopIndices`.
  (When `cellSize = 0` the JS bound is `Infinity` and the loop diverges;
  all loop theorems below assume `cellSize ≠ 0`.)
-/

/-- `Math.ceil (Math.sqrt n)` for a natural `n`: the least `k` with `n ≤ k ^ 2`. -/
def ceilSqrt (n : ℕ) : ℕ :=
  if Nat.sqrt n * Nat.sqrt n = n then Nat.sqrt n else Nat.sqrt n + 1

/-- Line style record, as passed to `PIXI.Graphics.lineStyle`:
`{ width, color, alpha, alignment, native }`. -/
structure LineStyle where
  width : ℚ
  color : ℕ
  alpha : ℚ
  alignment : ℚ
  native : Bool
deriving DecidableEq, Repr

/-- `DEFAULT_LINE_STYLE` from the top of the source file:
`{ width: 1, color: 0xffffff, alpha: 1, alignment: 0.5, native: true }`. -/
def DEFAULT_LINE_STYLE : LineStyle :=
  { width := 1, color := 0xffffff, alpha := 1, alignment := 1/2, native := true }

/-- The drawing state inherited from `PIXI.Graphics`: the segments drawn so
far (each recorded as a `moveTo`/`lineTo` pair) and the current line style. -/
structure Seg where
  ax : ℚ
  ay : ℚ
  bx : ℚ
  by' : ℚ
deriving DecidableEq, Repr

/-- The host `PIXI.Graphics` default line style, restored by `clear()`.
Its exact values belong to the external library; none of the claims depend
on them, only on whether the configured style survives a clear. -/
def pixiDefaultLineStyle : LineStyle :=
  { width := 0, color := 0, alpha := 1, alignment := 0, native := false }

/-- The mutable `PIXI.Graphics` surface state of the grid object. -/
structure Surface where
  segs : List Seg
  style : LineStyle
deriving DecidableEq, Repr

/-- The geometry fields of a `PixiJSGrid` object.  `x`, `y` are the
scene-graph position inherited from `PIXI.Graphics` (0 after `super()`). -/
structure PixiJSGrid where
  _gridWidth : ℕ
  _doCorrectWidth : Bool
  _correctedWidth : ℕ
  _cellSize : ℚ
  _drawBoundaries : Bool
  x : ℚ
  y : ℚ
deriving DecidableEq, Repr

namespace PixiJSGrid

/-- The `_correctWidth` method.  The JS body is

```js
if (!this._doCorrectWidth) { this._correctedWidth = this._gridWidth; }
this._correctedWidth = Math.ceil(Math.sqrt(this._gridWidth)) ** 2;
```

The first branch has no early return, so its assignment is always
overwritten: the stored value is `ceil(sqrt(gridWidth))^2` for every value
of `_doCorrectWidth`. -/
def _correctWidth (gridWidth : ℕ) (doCorrectWidth : Bool) : ℕ :=
  let _dead := if !doCorrectWidth then gridWidth else gridWidth
  ceilSqrt gridWidth ^ 2

/-- The `cellSize` setter: `this._cellSize = cellSize || Math.sqrt(this._correctedWidth)`.
`none` models an absent/null argument; `some 0` is the falsy number 0.
`Math.sqrt` is exact here because `_correctedWidth` is a perfect square. -/
def setCellSize (g : PixiJSGrid) (cellSize : Option ℚ) : PixiJSGrid :=
  { g with _cellSize :=
      match cellSize with
      | none => (Nat.sqrt g._correctedWidth : ℚ)
      | some q => if q = 0 then (Nat.sqrt g._correctedWidth : ℚ) else q }

/-- The `cellSize` getter. -/
def cellSize (g : PixiJSGrid) : ℚ := g._cellSize

/-- The `amtLines` getter: `this._correctedWidth / this.cellSize` (the spec's
`lineCount`), recomputed on every access. -/
def amtLines (g : PixiJSGrid) : ℚ := (g._correctedWidth : ℚ) / g.cellSize

/-- The corners of the grid, from the `bounds` getter. -/
structure GridBounds where
  x1 : ℚ
  y1 : ℚ
  x2 : ℚ
  y2 : ℚ
deriving DecidableEq, Repr

/-- The `bounds` getter:
`{ x1: this.x, y1: this.y, x2: this.x + this._correctedWidth, y2: this.y + this._correctedWidth }`. -/
def bounds (g : PixiJSGrid) : GridBounds :=
  { x1 := g.x
    y1 := g.y
    x2 := g.x + (g._correctedWidth : ℚ)
    y2 := g.y + (g._correctedWidth : ℚ) }

/-- The `gridWidth` getter (returns `this._correctedWidth`). -/
def gridWidth (g : PixiJSGrid) : ℕ := g._correctedWidth

/-- The constructor.  `super()` leaves the graphics state empty at position
`(0, 0)`; the body computes `_correctWidth`, runs the `cellSize` setter, and
applies `lineConfig || DEFAULT_LINE_STYLE` to the surface.  Nothing is drawn
at construction time. -/
def construct (width : ℕ) (cellSize : Option ℚ) (lineConfig : Option LineStyle)
    (doCorrectWidth : Bool) (drawBoundaries : Bool) : PixiJSGrid × Surface :=
  let g0 : PixiJSGrid :=
    { _gridWidth := width
      _doCorrectWidth := doCorrectWidth
      _correctedWidth := _correctWidth width doCorrectWidth
      _cellSize := 0
      _drawBoundaries := drawBoundaries
      x := 0
      y := 0 }
  let g1 := setCellSize g0 cellSize
  (g1, { segs := [], style := lineConfig.getD DEFAULT_LINE_STYLE })

/-- `getCellCoordinates(x, y)`:
`{ x: Math.floor((x - this.bounds.x1) / this.cellSize), y: Math.floor((y - this.bounds.y1) / this.cellSize) }`. -/
def getCellCoordinates (g : PixiJSGrid) (x y : ℚ) : ℤ × ℤ :=
  (⌊(x - (bounds g).x1) / g.cellSize⌋, ⌊(y - (bounds g).y1) / g.cellSize⌋)

/-- The `mousemove` listener registered in the constructor: if the pointer's
global position lies inside `bounds` (all four comparisons inclusive) it
calls `onMousemove(evt, gridCoords)`, otherwise it does nothing.  The result
is the cell-coordinate payload passed to the hook, or `none` when the hook
is not invoked. -/
def mousemoveHandler (g : PixiJSGrid) (px py : ℚ) : Option (ℤ × ℤ) :=
  if (bounds g).x1 ≤ px ∧ px ≤ (bounds g).x2 ∧ (bounds g).y1 ≤ py ∧ py ≤ (bounds g).y2 then
    some (getCellCoordinates g px py)
  else
    none

/-- The integer values taken by the `drawGrid` loop counter:

```js
for (let i = (db ? 0 : 1); i <= this.amtLines - (db ? 0 : 1); i += 1)
```

i.e. the integers from `off := (drawBoundaries ? 0 : 1)` up to
`⌊amtLines - off⌋`. -/
def gridLoopIndices (g : PixiJSGrid) : List ℤ :=
  let off : ℤ := if g._drawBoundaries then 0 else 1
  let hi : ℤ := ⌊g.amtLines - (off : ℚ)⌋
  (List.range (hi - off + 1).toNat).map (fun k => off + (k : ℤ))

/-- The segments drawn by one `drawGrid()` call: for each loop index `i`,
with `startCoord = i * this._cellSize`, the column
`moveTo(startCoord, 0); lineTo(startCoord, this._correctedWidth)` then the
row `moveTo(0, startCoord); lineTo(this._correctedWidth, startCoord)`. -/
def drawGridSegments (g : PixiJSGrid) : List Seg :=
  (gridLoopIndices g).flatMap fun i =>
    let startCoord : ℚ := (i : ℚ) * g._cellSize
    [{ ax := startCoord, ay := 0, bx := startCoord, by' := (g._correctedWidth : ℚ) },
     { ax := 0, ay := startCoord, bx := (g._correctedWidth : ℚ), by' := startCoord }]

/-- `clearGrid(retainLineStyle)`: captures the current line style from
`this.line`, calls `clear()` (which erases the geometry and resets the line
style to the `PIXI.Graphics` default), then — only when `retainLineStyle` —
reapplies the captured style and returns `this`.  When `retainLineStyle` is
false the bare `return;` yields `undefined` (`none`). -/
def clearGrid (g : PixiJSGrid) (s : Surface) (retainLineStyle : Bool) :
    Option PixiJSGrid × Surface :=
  let captured := s.style
  let cleared : Surface := { segs := [], style := pixiDefaultLineStyle }
  if !retainLineStyle then (none, cleared)
  else (some g, { cleared with style := captured })

/-- `drawGrid()`: calls `this.clearGrid(true)` (result discarded), draws the
loop's segments, calls `endFill()` (no geometric effect on the recorded
segments), and returns `this`. -/
def drawGrid (g : PixiJSGrid) (s : Surface) : Option PixiJSGrid × Surface :=
  let s1 := (clearGrid g s true).2
  (some g, { s1 with segs := drawGridSegments g })

end PixiJSGrid

/-- A JS argument value that is numerically falsy (absent/null or 0) or a
positive number — the inputs under which the `cellSize` setter can keep the
cell size positive. -/
def FalsyOrPos (v : Option ℚ) : Prop :=
  v = none ∨ v = some 0 ∨ ∃ q, v = some q ∧ 0 < q

/-! ## Helper lemmas -/

lemma list_flatMap_map {α β γ : Type} (l : List α) (f : α → β) (g : β → List γ) :
    (l.map f).flatMap g = l.flatMap (fun a => g (f a)) := by
  induction l with
  | nil => rfl
  | cons a t ih => simp [List.map_cons, List.flatMap_cons, ih]

lemma list_flatMap_singleton (l : List ℕ) :
    (l.flatMap fun a => [(a : ℤ)]) = l.map (fun (k : ℕ) => (k : ℤ)) := by
  induction l with
  | nil => rfl
  | cons a t ih => rw [List.flatMap_cons, List.map_cons, ih]; rfl

lemma natSqrt_sixteen : Nat.sqrt 16 = 4 := by
  rw [show (16 : ℕ) = 4 * 4 from rfl, Nat.sqrt_eq]

lemma natSqrt_ten : Nat.sqrt 10 = 3 := by
  rw [show (10 : ℕ) = 3 * 3 + 1 from rfl, Nat.sqrt_add_eq 3 (by norm_num)]

lemma ceilSqrt_ten : ceilSqrt 10 = 4 := by
  simp [ceilSqrt, natSqrt_ten]

lemma ceilSqrt_sixteen : ceilSqrt 16 = 4 := by
  simp [ceilSqrt, natSqrt_sixteen]

/-- `ceilSqrt n` squared dominates `n`: `n ≤ ceil(sqrt n)^2`. -/
lemma le_ceilSqrt_sq (n : ℕ) : n ≤ ceilSqrt n ^ 2 := by
  unfold ceilSqrt
  split
  · rename_i h
    calc n = Nat.sqrt n * Nat.sqrt n := h.symm
    _ = Nat.sqrt n ^ 2 := (sq (Nat.sqrt n)).symm
    _ ≤ Nat.sqrt n ^ 2 := le_refl _
  · exact le_of_lt (Nat.lt_succ_sqrt' n)

/-- `ceilSqrt n` is the least `k` with `n ≤ k ^ 2`. -/
lemma ceilSqrt_le (n k : ℕ) (h : n ≤ k ^ 2) : ceilSqrt n ≤ k := by
  have hsk : Nat.sqrt n ≤ k := by
    have := Nat.sqrt_le_sqrt h
    rwa [Nat.sqrt_eq'] at this
  unfold ceilSqrt
  split
  · exact hsk
  · rename_i hne
    rcases Nat.lt_or_ge (Nat.sqrt n) k with hlt | hge
    · omega
    · exfalso
      have hk : k = Nat.sqrt n := le_antisymm hge hsk
      have h1 : n ≤ Nat.sqrt n ^ 2 := hk ▸ h
      have h2 : Nat.sqrt n ^ 2 ≤ n := Nat.sqrt_le' n
      have : Nat.sqrt n * Nat.sqrt n = n := by
        have := le_antisymm h2 h1
        rwa [sq] at this
      exact hne this

namespace PixiJSGrid

/-- With `drawBoundaries = true` and an integral `amtLines = n`, the
`drawGrid` loop counter runs through `0, 1, …, n`. -/
lemma gridLoopIndices_boundaries (g : PixiJSGrid) (n : ℕ) (hdb : g._drawBoundaries = true)
    (hn : g.amtLines = (n : ℚ)) :
    gridLoopIndices g = (List.range (n + 1)).map (fun (k : ℕ) => (k : ℤ)) := by
  unfold gridLoopIndices
  simp [hdb, hn]
  exact list_flatMap_singleton _

/-- With `drawBoundaries = false` and an integral `amtLines = n`, the
`drawGrid` loop counter runs through `1, …, n - 1` only. -/
lemma gridLoopIndices_no_boundaries (g : PixiJSGrid) (n : ℕ) (hdb : g._drawBoundaries = false)
    (hn : g.amtLines = (n : ℚ)) :
    gridLoopIndices g = (List.range' 1 (n - 1)).map (fun (k : ℕ) => (k : ℤ)) := by
  unfold gridLoopIndices
  simp [hdb, hn, List.range'_eq_map_range, List.map_map, Function.comp]
  induction (List.range (n - 1)) with
  | nil => rfl
  | cons a t ih => simp [ih]

/-! ## Claims -/

/-- C1 (code bug): the spec says a grid constructed with `doCorrectWidth =
false` keeps `correctedWidth = requestedWidth`, and `_correctWidth`'s own
doc comment agrees ("it simply keeps the given value for `width`"), but the
body lacks an early return, so the flag-false assignment is overwritten by
the unconditional perfect-square computation.  At `width = 10`,
`doCorrectWidth = false`, the code yields `correctedWidth = 16`, not 10. -/
theorem correctedWidth_overwritten_when_flag_false :
    ((construct 10 none none false true).1)._correctedWidth = 16 ∧ (10 : ℕ) ≠ 16 := by
  constructor
  · simp [construct, setCellSize, _correctWidth, ceilSqrt_ten]
  · norm_num

/-- C2: with width correction enabled and `w > 0`, `correctedWidth` is
`ceilSqrt w ^ 2`, the smallest perfect square not less than `w` (for any
constructor arguments besides the width); concretely, `w = 10` gives
`correctedWidth = 16`, default `cellSize = 4` and `lineCount = 4`, and
`w = 16` gives `correctedWidth = 16`. -/
theorem correctedWidth_smallest_square (w : ℕ) (cs : Option ℚ) (cfg : Option LineStyle)
    (db : Bool) (_hw : 0 < w) :
    (((construct w cs cfg true db).1)._correctedWidth = ceilSqrt w ^ 2
      ∧ w ≤ ((construct w cs cfg true db).1)._correctedWidth
      ∧ (∀ k : ℕ, w ≤ k ^ 2 → ((construct w cs cfg true db).1)._correctedWidth ≤ k ^ 2))
    ∧ ((construct 10 none none true true).1)._correctedWidth = 16
    ∧ ((construct 10 none none true true).1).cellSize = 4
    ∧ amtLines ((construct 10 none none true true).1) = 4
    ∧ ((construct 16 none none true true).1)._correctedWidth = 16 := by
  refine ⟨⟨?_, ?_, ?_⟩, ?_, ?_, ?_, ?_⟩
  · simp [construct, setCellSize, _correctWidth]
  · simpa [construct, setCellSize, _correctWidth] using le_ceilSqrt_sq w
  · intro k hk
    have h1 : ceilSqrt w ≤ k := ceilSqrt_le w k hk
    have h2 : ceilSqrt w ^ 2 ≤ k ^ 2 := Nat.pow_le_pow_left h1 2
    simpa [construct, setCellSize, _correctWidth] using h2
  · simp [construct, setCellSize, _correctWidth, ceilSqrt_ten]
  · simp [construct, setCellSize, _correctWidth, cellSize, ceilSqrt_ten, natSqrt_sixteen]
  · simp [construct, setCellSize, _correctWidth, cellSize, amtLines, ceilSqrt_ten,
      natSqrt_sixteen]
    norm_num
  · simp [construct, setCellSize, _correctWidth, ceilSqrt_sixteen]

/-- Witness for C2: the theorem applied at `w = 10`. -/
theorem correctedWidth_smallest_square_witness :
    ((construct 10 none none true true).1)._correctedWidth = 16 :=
  (correctedWidth_smallest_square 10 none none true (by norm_num)).2.1

/-- C3 counterexample: the claim says *any* `x` strictly less than
`bounds.x1 + cellSize` maps to cell x-index 0, with no lower bound on `x`.
On the default grid of width 16 (so `bounds.x1 = 0`, `cellSize = 4`), the
coordinate `x = -1` satisfies `x < bounds.x1 + cellSize` yet maps to cell
x-index `⌊-1/4⌋ = -1 ≠ 0`. -/
theorem getCellCoordinates_below_x1_not_zero :
    ((-1 : ℚ) < (bounds ((construct 16 none none true true).1)).x1
        + ((construct 16 none none true true).1).cellSize)
    ∧ (getCellCoordinates ((construct 16 none none true true).1) (-1) 0).1 ≠ 0 := by
  constructor
  · simp [construct, setCellSize, _correctWidth, cellSize, bounds, ceilSqrt_sixteen,
      natSqrt_sixteen]
    norm_num
  · simp [construct, setCellSize, _correctWidth, cellSize, getCellCoordinates, bounds,
      ceilSqrt_sixteen, natSqrt_sixteen]
    norm_num

/-- C3 (amended): for every grid with positive cell size,
`getCellCoordinates` returns the floor-quotient pair;
`getCellCoordinates(bounds.x1, bounds.y1) = (0, 0)`; any `x` with
`bounds.x1 ≤ x < bounds.x1 + cellSize` maps to x-index 0; and
`x = bounds.x1 + cellSize` maps to x-index 1. -/
theorem getCellCoordinates_floor (g : PixiJSGrid) (x y : ℚ) (hcs : 0 < g.cellSize) :
    getCellCoordinates g x y =
      (⌊(x - (bounds g).x1) / g.cellSize⌋, ⌊(y - (bounds g).y1) / g.cellSize⌋)
    ∧ getCellCoordinates g (bounds g).x1 (bounds g).y1 = (0, 0)
    ∧ ((bounds g).x1 ≤ x → x < (bounds g).x1 + g.cellSize → (getCellCoordinates g x y).1 = 0)
    ∧ (getCellCoordinates g ((bounds g).x1 + g.cellSize) y).1 = 1 := by
  refine ⟨rfl, ?_, ?_, ?_⟩
  · simp [getCellCoordinates, cellSize]
  · intro h1 h2
    have hnum : (0 : ℚ) ≤ (x - (bounds g).x1) / g.cellSize :=
      div_nonneg (by linarith) hcs.le
    have hlt : (x - (bounds g).x1) / g.cellSize < 1 :=
      (div_lt_one hcs).2 (by linarith)
    simp only [getCellCoordinates]
    exact Int.floor_eq_zero_iff.2 ⟨hnum, hlt⟩
  · simp only [getCellCoordinates]
    rw [add_sub_cancel_left, div_self hcs.ne', Int.floor_one]

/-- Witness for C3 (amended): on the default width-16 grid, the corner
`(bounds.x1, bounds.y1)` maps to cell `(0, 0)`. -/
theorem getCellCoordinates_floor_witness :
    getCellCoordinates ((construct 16 none none true true).1)
        (bounds ((construct 16 none none true true).1)).x1
        (bounds ((construct 16 none none true true).1)).y1 = (0, 0) :=
  (getCellCoordinates_floor ((construct 16 none none true true).1) 2 0
    (by norm_num [construct, setCellSize, _correctWidth, cellSize, ceilSqrt_sixteen,
      natSqrt_sixteen])).2.1

/-- C4: the mousemove hook fires exactly when the pointer is inside the
(inclusive) bounds box, and then receives the cell coordinates of the
pointer; `(bounds.x1 - 1, bounds.y1)` never fires the hook while
`(bounds.x1, bounds.y1)` always does. -/
theorem mousemove_hook_iff_in_bounds (g : PixiJSGrid) (px py : ℚ) :
    (mousemoveHandler g px py = some (getCellCoordinates g px py)
        ↔ ((bounds g).x1 ≤ px ∧ px ≤ (bounds g).x2 ∧ (bounds g).y1 ≤ py ∧ py ≤ (bounds g).y2))
    ∧ (mousemoveHandler g px py = none
        ↔ ¬((bounds g).x1 ≤ px ∧ px ≤ (bounds g).x2 ∧ (bounds g).y1 ≤ py ∧ py ≤ (bounds g).y2))
    ∧ mousemoveHandler g ((bounds g).x1 - 1) (bounds g).y1 = none
    ∧ mousemoveHandler g (bounds g).x1 (bounds g).y1
        = some (getCellCoordinates g (bounds g).x1 (bounds g).y1) := by
  refine ⟨?_, ?_, ?_, ?_⟩
  · by_cases h : (bounds g).x1 ≤ px ∧ px ≤ (bounds g).x2
        ∧ (bounds g).y1 ≤ py ∧ py ≤ (bounds g).y2 <;>
      simp [mousemoveHandler, h]
  · by_cases h : (bounds g).x1 ≤ px ∧ px ≤ (bounds g).x2
        ∧ (bounds g).y1 ≤ py ∧ py ≤ (bounds g).y2 <;>
      simp [mousemoveHandler, h]
  · rw [mousemoveHandler, if_neg]
    intro h
    have := h.1
    linarith
  · rw [mousemoveHandler, if_pos]
    refine ⟨le_refl _, ?_, le_refl _, ?_⟩ <;>
      simp [bounds]

/-- C5: for a grid with an integral line count `amtLines = n` (and a
nonzero cell size, so the JS loop terminates), `drawGrid` with
`drawBoundaries = true` draws `n + 1` vertical and `n + 1` horizontal
lines, spaced `cellSize` apart starting at local coordinate 0 and spanning
`[0, correctedWidth]`; with `drawBoundaries = false` only the interior
lines `1, …, n - 1` are drawn on each axis; `drawGrid` returns the grid
with its fields unchanged, and the `drawBoundaries` flag has no effect on
`bounds` or `getCellCoordinates`. -/
theorem drawGrid_draws_lines (g : PixiJSGrid) (n : ℕ) (hn : amtLines g = (n : ℚ))
    (_hcs : g.cellSize ≠ 0) :
    (g._drawBoundaries = true →
      drawGridSegments g = (List.range (n + 1)).flatMap (fun (i : ℕ) =>
        [{ ax := (i : ℚ) * g.cellSize, ay := 0, bx := (i : ℚ) * g.cellSize,
           by' := (g._correctedWidth : ℚ) },
         { ax := 0, ay := (i : ℚ) * g.cellSize, bx := (g._correctedWidth : ℚ),
           by' := (i : ℚ) * g.cellSize }]))
    ∧ (g._drawBoundaries = false →
      drawGridSegments g = (List.range' 1 (n - 1)).flatMap (fun (i : ℕ) =>
        [{ ax := (i : ℚ) * g.cellSize, ay := 0, bx := (i : ℚ) * g.cellSize,
           by' := (g._correctedWidth : ℚ) },
         { ax := 0, ay := (i : ℚ) * g.cellSize, bx := (g._correctedWidth : ℚ),
           by' := (i : ℚ) * g.cellSize }]))
    ∧ (∀ s : Surface, (drawGrid g s).1 = some g)
    ∧ (∀ b : Bool, bounds { g with _drawBoundaries := b } = bounds g)
    ∧ (∀ (b : Bool) (x y : ℚ),
        getCellCoordinates { g with _drawBoundaries := b } x y = getCellCoordinates g x y) := by
  refine ⟨?_, ?_, fun s => rfl, fun b => rfl, fun b x y => rfl⟩
  · intro hdb
    rw [drawGridSegments, gridLoopIndices_boundaries g n hdb hn, list_flatMap_map]
    simp only [cellSize, Int.cast_natCast]
  · intro hdb
    rw [drawGridSegments, gridLoopIndices_no_boundaries g n hdb hn, list_flatMap_map]
    simp only [cellSize, Int.cast_natCast]

/-- Witness for C5: the default width-16 grid (`cellSize = 4`,
`amtLines = 4`, boundaries drawn) draws the `4 + 1` lines per axis. -/
theorem drawGrid_draws_lines_witness :
    drawGridSegments ((construct 16 none none true true).1) =
      (List.range (4 + 1)).flatMap (fun (i : ℕ) =>
        [{ ax := (i : ℚ) * ((construct 16 none none true true).1).cellSize, ay := 0,
           bx := (i : ℚ) * ((construct 16 none none true true).1).cellSize,
           by' := ((((construct 16 none none true true).1))._correctedWidth : ℚ) },
         { ax := 0, ay := (i : ℚ) * ((construct 16 none none true true).1).cellSize,
           bx := ((((construct 16 none none true true).1))._correctedWidth : ℚ),
           by' := (i : ℚ) * ((construct 16 none none true true).1).cellSize }]) :=
  (drawGrid_draws_lines ((construct 16 none none true true).1) 4
      (by norm_num [construct, setCellSize, _correctWidth, cellSize, amtLines,
        ceilSqrt_sixteen, natSqrt_sixteen])
      (by norm_num [construct, setCellSize, _correctWidth, cellSize,
        ceilSqrt_sixteen, natSqrt_sixteen])).1 rfl

/-- C6: `drawGrid(); clearGrid(true); drawGrid()` leaves the drawing
surface (segments and line style) in exactly the state a single
`drawGrid()` produces. -/
theorem drawGrid_clearGrid_drawGrid_idempotent (g : PixiJSGrid) (s : Surface) :
    (drawGrid g (clearGrid g (drawGrid g s).2 true).2).2 = (drawGrid g s).2 := by
  simp [drawGrid, clearGrid]

/-- C7: on any constructed grid, assigning a falsy value (absent or 0) to
`cellSize` — at construction or afterwards — resets it to
`sqrt(correctedWidth)` (and `Nat.sqrt correctedWidth` really is that square
root, since `correctedWidth` is a perfect square), while assigning a
truthy value `v ≠ 0` stores `v` itself. -/
theorem cellSize_setter (w : ℕ) (cs : Option ℚ) (cfg : Option LineStyle)
    (dcw db : Bool) (v : ℚ) (hv : v ≠ 0) :
    (setCellSize ((construct w cs cfg dcw db).1) none).cellSize
        = (Nat.sqrt (((construct w cs cfg dcw db).1)._correctedWidth) : ℚ)
    ∧ (Nat.sqrt (((construct w cs cfg dcw db).1)._correctedWidth)) ^ 2
        = ((construct w cs cfg dcw db).1)._correctedWidth
    ∧ (setCellSize ((construct w cs cfg dcw db).1) (some 0)).cellSize
        = (Nat.sqrt (((construct w cs cfg dcw db).1)._correctedWidth) : ℚ)
    ∧ (setCellSize ((construct w cs cfg dcw db).1) (some v)).cellSize = v
    ∧ ((cs = none ∨ cs = some 0) →
        ((construct w cs cfg dcw db).1).cellSize
          = (Nat.sqrt (((construct w cs cfg dcw db).1)._correctedWidth) : ℚ))
    ∧ (cs = some v → ((construct w cs cfg dcw db).1).cellSize = v) := by
  refine ⟨?_, ?_, ?_, ?_, ?_, ?_⟩
  · simp [setCellSize, cellSize]
  · simp [construct, setCellSize, _correctWidth, Nat.sqrt_eq']
  · simp [setCellSize, cellSize]
  · simp [setCellSize, cellSize, hv]
  · rintro (rfl | rfl) <;> simp [construct, setCellSize, cellSize]
  · rintro rfl
    simp [construct, setCellSize, cellSize, hv]

/-- Witness for C7: assigning 2 to the default width-16 grid stores 2. -/
theorem cellSize_setter_witness :
    (setCellSize ((construct 16 none none true true).1) (some 2)).cellSize = 2 :=
  (cellSize_setter 16 none none true true 2 (by norm_num)).2.2.2.1

/-- C8 counterexample: `clearGrid(false)` does not return the grid object —
the early `return;` yields `undefined` (`none`), so the claim that both
methods return `this` for every value of `retainLineStyle` is false. -/
theorem clearGrid_false_returns_undefined :
    (clearGrid ((construct 16 none none true true).1)
        ((construct 16 none none true true).2) false).1 = none
    ∧ (clearGrid ((construct 16 none none true true).1)
        ((construct 16 none none true true).2) false).1
      ≠ some ((construct 16 none none true true).1) := by
  constructor <;> simp [clearGrid]

/-- C8 (amended): `drawGrid()` and `clearGrid(true)` return the grid object
itself; `clearGrid(false)` returns `undefined`. -/
theorem draw_clear_return_values (g : PixiJSGrid) (s : Surface) :
    (drawGrid g s).1 = some g ∧ (clearGrid g s true).1 = some g
    ∧ (clearGrid g s false).1 = none := by
  refine ⟨rfl, ?_, ?_⟩ <;> simp [clearGrid]

/-- C9 counterexample: the setter accepts any truthy value unchecked, so
assigning `-1` leaves `cellSize = -1 ≤ 0`; and a grid constructed with
width 0 gets default `cellSize = sqrt(0) = 0`.  The invariant
`cellSize > 0` therefore does not hold unconditionally. -/
theorem cellSize_invariant_breaks :
    ¬(0 < (setCellSize ((construct 16 none none true true).1) (some (-1))).cellSize)
    ∧ ¬(0 < ((construct 0 none none true true).1).cellSize) := by
  constructor
  · norm_num [setCellSize, cellSize]
  · norm_num [construct, setCellSize, cellSize, _correctWidth, ceilSqrt]

/-- C9 (amended): `cellSize > 0` holds after construction and is preserved
by every `cellSize` assignment, provided the constructed width is positive
and every assigned value is falsy (triggering the `sqrt(correctedWidth)`
reset) or positive. -/
theorem cellSize_positive (w : ℕ) (cs : Option ℚ) (cfg : Option LineStyle) (dcw db : Bool)
    (hw : 0 < w) (hcs : FalsyOrPos cs) :
    (0 < ((construct w cs cfg dcw db).1).cellSize
      ∧ 0 < ((construct w cs cfg dcw db).1)._correctedWidth)
    ∧ (∀ (g : PixiJSGrid), 0 < g._correctedWidth → ∀ v, FalsyOrPos v →
        0 < (setCellSize g v).cellSize
        ∧ (setCellSize g v)._correctedWidth = g._correctedWidth) := by
  have hset : ∀ (g : PixiJSGrid), 0 < g._correctedWidth → ∀ v, FalsyOrPos v →
      0 < (setCellSize g v).cellSize := by
    intro g hg v hv
    rcases hv with rfl | rfl | ⟨q, rfl, hq⟩
    · simp only [setCellSize, cellSize]
      exact_mod_cast Nat.sqrt_pos.2 hg
    · simp only [setCellSize, cellSize, if_pos rfl]
      exact_mod_cast Nat.sqrt_pos.2 hg
    · simp only [setCellSize, cellSize, if_neg hq.ne']
      exact hq
  have hcw : 0 < ((construct w cs cfg dcw db).1)._correctedWidth := by
    have : 0 < ceilSqrt w ^ 2 := lt_of_lt_of_le hw (le_ceilSqrt_sq w)
    simpa [construct, setCellSize, _correctWidth] using this
  refine ⟨⟨?_, hcw⟩, fun g hg v hv => ⟨hset g hg v hv, rfl⟩⟩
  exact hset _ hcw cs hcs

/-- Witness for C9 (amended): the default width-16 grid has a positive cell
size. -/
theorem cellSize_positive_witness :
    0 < ((construct 16 none none true true).1).cellSize :=
  (cellSize_positive 16 none none true true (by norm_num) (Or.inl rfl)).1.1

/-- C10: the `cellSize` setter assigns only `this._cellSize`: the corrected
width, the stored requested width, the `gridWidth` getter, the
`drawBoundaries` and `doCorrectWidth` flags, the position and the derived
`bounds` are all unchanged.  (The setter never touches the drawing surface,
so the line style configuration — which lives on the surface — is untouched
as well: it takes no `Surface` argument at all.) -/
theorem setCellSize_frame (g : PixiJSGrid) (v : Option ℚ) :
    (setCellSize g v)._correctedWidth = g._correctedWidth
    ∧ (setCellSize g v)._gridWidth = g._gridWidth
    ∧ gridWidth (setCellSize g v) = gridWidth g
    ∧ (setCellSize g v)._drawBoundaries = g._drawBoundaries
    ∧ (setCellSize g v)._doCorrectWidth = g._doCorrectWidth
    ∧ (setCellSize g v).x = g.x
    ∧ (setCellSize g v).y = g.y
    ∧ bounds (setCellSize g v) = bounds g :=
  ⟨rfl, rfl, rfl, rfl, rfl, rfl, rfl, rfl⟩

end PixiJSGrid

